/-
Verification of the Snake tensor/autograd engine.

The repository contains two iterations of the tensor library:
  * a "legacy" graph-aware tensor (src/src/tensor.c, src/src/autograd.c,
    src/src/utils.c) with a ref-counted Storage of floats, dims/strides
    arrays, parents and a string operator tag; and
  * a "core" variant (src/src/tensor/_shape.c, _tensor_core.c,
    _tensor_view.c) with an opaque Shape (dims + strides) and an
    ownership-tagged data buffer.

Both are embedded below.  Scalar values are modelled as integers: the C
code computes with 32-bit floats, but every property treated here is
about which elements are read, written and combined by ring operations
and exact `== 0` tests, not about rounding, so any ring with decidable
equality is a faithful carrier (division appears only in tensor_div,
whose quotient buffer is freed on the division-by-zero path the claims
exercise and whose values no theorem observes).  C buffers are lists;
undefined behaviour in the C source is modelled by returning `none`:
an out-of-bounds buffer *write* (`storeAll`), and backward's "add"
branch, which passes a raw `float*` grad buffer where accumulate_grad
expects a `Tensor*` and so dereferences reinterpreted float bits.
In-bounds reads use `List.getD` (every theorem below only exercises
in-bounds reads).
-/
import Mathlib

set_option maxHeartbeats 1000000

namespace Snake

namespace Legacy

/-- Product of a dims array, as computed by the `total_elements` loops in
tensor.c (the empty product is 1). -/
def prodDims (dims : List Nat) : Nat := dims.foldl (· * ·) 1

/-- A legacy tensor (struct Tensor of include/tensor.h) as far as the
data/gradient claims are concerned: `data` models `storage->data` (so
`data.length` models `storage->size`), `grad` models the lazily
allocated `grad` buffer (`none` = NULL). -/
structure LTensor where
  dims : List Nat
  data : List ℤ
  requiresGrad : Bool
  grad : Option (List ℤ)
  deriving Repr, DecidableEq

/-- A legacy tensor that is the output of an operator: the same state
plus the operator tag installed by `set_parents` (tensor.c:283).  The two
parents recorded by `set_parents` are passed to `backward` explicitly. -/
structure LNode where
  dims : List Nat
  data : List ℤ
  requiresGrad : Bool
  grad : Option (List ℤ)
  opName : String
  deriving Repr, DecidableEq

/-- accumulate_grad (autograd.c:44-56): lazily zero-allocates the grad
buffer sized to `tensor->storage->size`, then adds the source values
elementwise over that many indices.  `gsrc` models the data buffer of
the `Tensor` argument (`grad->storage->data`); the only call sites kept
in this model are backward's mul/matmul branches, which pass a genuine
freshly created scratch Tensor.  No size check is performed by this
variant. -/
def accumulateGradA (t : LTensor) (gsrc : List ℤ) : LTensor :=
  let sz := t.data.length
  let g0 := t.grad.getD (List.replicate sz 0)
  { t with grad := some ((List.range sz).map fun i => g0.getD i 0 + gsrc.getD i 0) }

/-- The initial-gradient seeding in backward (autograd.c:63-67): if the
grad buffer is absent it is zero-allocated and index 0 is set to 1. -/
def seedGrad (t : LNode) : List ℤ :=
  match t.grad with
  | some g => g
  | none => (List.replicate t.data.length 0).set 0 1

/-- A sequence of stores into a C heap buffer.  A store beyond the
allocated length is an out-of-bounds heap write (undefined behaviour in
the source), modelled as `none`. -/
def storeAll (buf : List ℤ) (writes : List (Nat × ℤ)) : Option (List ℤ) :=
  writes.foldlM (fun b iv => if iv.1 < b.length then some (b.set iv.1 iv.2) else none) buf

/-- The writes performed by the matmul branch of backward for parent 0
(autograd.c:98-108): grad->storage->data[m * parent->dims[1] + k] =
sum over n of tensor->grad[m * tensor->dims[1] + n] *
other->storage->data[k * other->dims[1] + n]. -/
def matmulWrites0 (t : LNode) (parent other : LTensor) (tg : List ℤ) : List (Nat × ℤ) :=
  (List.range (parent.dims.getD 0 0)).flatMap fun m =>
    (List.range (parent.dims.getD 1 0)).map fun k =>
      (m * parent.dims.getD 1 0 + k,
       ((List.range (t.dims.getD 1 0)).map fun n =>
          tg.getD (m * t.dims.getD 1 0 + n) 0 *
            other.data.getD (k * other.dims.getD 1 0 + n) 0).sum)

/-- The writes performed by the matmul branch of backward for parent 1
(autograd.c:111-121): grad->storage->data[k * parent->dims[1] + n] =
sum over m of tensor->grad[m * tensor->dims[1] + n] *
other->storage->data[m * other->dims[1] + k]. -/
def matmulWrites1 (t : LNode) (parent other : LTensor) (tg : List ℤ) : List (Nat × ℤ) :=
  (List.range (parent.dims.getD 0 0)).flatMap fun k =>
    (List.range (parent.dims.getD 1 0)).map fun n =>
      (k * parent.dims.getD 1 0 + n,
       ((List.range (t.dims.getD 0 0)).map fun m =>
          tg.getD (m * t.dims.getD 1 0 + n) 0 *
            other.data.getD (m * other.dims.getD 1 0 + k) 0).sum)

/-- One iteration of the parent loop of backward (autograd.c:70-127):
`i` is the loop index, `parent` is `tensor->parents[i]` and `other` the
other recorded parent.  Dispatch is by `strcmp` on the operator tag;
an unrecognized tag accumulates nothing. -/
def parentGrad (t : LNode) (i : Nat) (parent other : LTensor) (tg : List ℤ) :
    Option LTensor :=
  if parent.requiresGrad = false then some parent
  else if t.opName = "add" then
    -- autograd.c:76 calls accumulate_grad(parent, tensor->grad), passing the
    -- raw float* grad buffer where the prototype expects a Tensor*
    -- (tensor.h:67 / autograd.h:22, two conflicting declarations);
    -- accumulate_grad then reads grad->storage out of the reinterpreted
    -- float bits and dereferences it -- undefined behaviour, modelled as
    -- none like the out-of-bounds stores
    none
  else if t.opName = "mul" then
    -- scratch created with tensor_create(other->num_dims, other->dims, NULL),
    -- every cell j < its size is then written (autograd.c:82-86)
    let scratch := (List.range (prodDims other.dims)).map fun j =>
      tg.getD j 0 * other.data.getD j 0
    some (accumulateGradA parent scratch)
  else if t.opName = "matmul" then
    -- scratch likewise created with the OTHER parent's dims (autograd.c:95)
    let scratch0 := List.replicate (prodDims other.dims) (0 : ℤ)
    let writes := if i = 0 then matmulWrites0 t parent other tg
                  else matmulWrites1 t parent other tg
    (storeAll scratch0 writes).map fun sd => accumulateGradA parent sd
  else
    some parent

/-- backward (autograd.c:59-134) on a node with the two parents recorded
by `set_parents`.  Returns the updated states of parent 0, parent 1 and
the node itself; the node's grad buffer is freed afterwards unless
`retain` (autograd_ctx.retain_graph) is set. -/
def backward (t : LNode) (p0 p1 : LTensor) (retain : Bool) :
    Option (LTensor × LTensor × LNode) :=
  if t.requiresGrad = false then some (p0, p1, t)
  else
    let tg := seedGrad t
    do
      let q0 ← parentGrad t 0 p0 p1 tg
      let q1 ← parentGrad t 1 p1 p0 tg
      some (q0, q1, { t with grad := if retain then some tg else none })

/-- tensor_add (tensor.c:297-319): equal dims required, elementwise sum,
tag "add". -/
def tensor_add (a b : LTensor) : Option LNode :=
  if a.dims.length ≠ b.dims.length then none
  else if (List.range a.dims.length).any
      (fun i => a.dims.getD i 0 != b.dims.getD i 0) then none
  else some
    { dims := a.dims
      data := (List.range (prodDims a.dims)).map fun i =>
        a.data.getD i 0 + b.data.getD i 0
      requiresGrad := a.requiresGrad || b.requiresGrad
      grad := none
      opName := "add" }

/-- tensor_mul (tensor.c:377-399): equal dims required, elementwise
product, tag "mul". -/
def tensor_mul (a b : LTensor) : Option LNode :=
  if a.dims.length ≠ b.dims.length then none
  else if (List.range a.dims.length).any
      (fun i => a.dims.getD i 0 != b.dims.getD i 0) then none
  else some
    { dims := a.dims
      data := (List.range (prodDims a.dims)).map fun i =>
        a.data.getD i 0 * b.data.getD i 0
      requiresGrad := a.requiresGrad || b.requiresGrad
      grad := none
      opName := "mul" }

/-- The broadcast index computation of tensor_sub (tensor.c:353-366):
walks the digits of `i` in the radix given by `a`'s dims from the last
axis leftward, keeping only the axes that overlap `b` right-aligned. -/
def subBIndex (adims bdims : List Nat) (i : Nat) : Nat :=
  (((List.range adims.length).reverse).foldl
    (fun (st : Nat × Nat) j =>
      if adims.length - bdims.length ≤ j then
        let bd := bdims.getD (j - (adims.length - bdims.length)) 0
        if bd = 1 then (st.1 / adims.getD j 0, st.2)
        else (st.1 / adims.getD j 0, st.2 * bd + st.1 % adims.getD j 0)
      else st)
    (i, 0)).2

/-- tensor_sub (tensor.c:322-374): right-aligned broadcasting of `b`
over `a`, tag "sub". -/
def tensor_sub (a b : LTensor) : Option LNode :=
  if a.dims.length < b.dims.length then none
  else if (List.range a.dims.length).any (fun i =>
      decide (a.dims.length - b.dims.length ≤ i) &&
      (let bd := b.dims.getD (i - (a.dims.length - b.dims.length)) 0
       bd != 1 && bd != a.dims.getD i 0)) then none
  else some
    { dims := a.dims
      data := (List.range (prodDims a.dims)).map fun i =>
        let bIndex := if b.data.length = 1 then 0
                      else if b.data.length < a.data.length then subBIndex a.dims b.dims i
                      else i
        a.data.getD i 0 - b.data.getD bIndex 0
      requiresGrad := a.requiresGrad || b.requiresGrad
      grad := none
      opName := "sub" }

/-- tensor_matmul (tensor.c:437-468): strictly 2-D, inner dimensions
must agree, row-major triple loop, tag "matmul". -/
def tensor_matmul (a b : LTensor) : Option LNode :=
  if a.dims.length ≠ 2 ∨ b.dims.length ≠ 2 then none
  else if a.dims.getD 1 0 ≠ b.dims.getD 0 0 then none
  else
    let m := a.dims.getD 0 0
    let k := a.dims.getD 1 0
    let n := b.dims.getD 1 0
    some
      { dims := [m, n]
        data := (List.range m).flatMap fun i =>
          (List.range n).map fun j =>
            ((List.range k).map fun kk =>
              a.data.getD (i * k + kk) 0 * b.data.getD (kk * n + j) 0).sum
        requiresGrad := a.requiresGrad || b.requiresGrad
        grad := none
        opName := "matmul" }

/-- Result of tensor_div: the operand states after the call (the source
never writes to `a`'s or `b`'s buffers, so they are threaded through
unchanged), the returned tensor (`none` = NULL), and the number of
report_error invocations on this path. -/
structure DivOut where
  a : LTensor
  b : LTensor
  result : Option LNode
  errors : Nat
  deriving Repr, DecidableEq

/-- tensor_div (tensor.c:402-434): equal dims required; the quotient is
computed into a fresh result while scanning for a zero divisor; if any
divisor element is exactly 0 the result is freed, report_error is called
once and NULL is returned; otherwise tag "div". -/
def tensor_div (a b : LTensor) : DivOut :=
  if a.dims.length ≠ b.dims.length then ⟨a, b, none, 1⟩
  else if (List.range a.dims.length).any
      (fun i => a.dims.getD i 0 != b.dims.getD i 0) then ⟨a, b, none, 1⟩
  else
    let n := prodDims a.dims
    let hasZero := (List.range n).any fun i => b.data.getD i 0 == 0
    if hasZero then ⟨a, b, none, 1⟩
    else ⟨a, b, some
      { dims := a.dims
        data := (List.range n).map fun i => a.data.getD i 0 / b.data.getD i 0
        requiresGrad := a.requiresGrad || b.requiresGrad
        grad := none
        opName := "div" }, 0⟩

/-- accumulate_grad (tensor.c:563-582), the second iteration of the
function: returns immediately unless `requires_grad` is set; otherwise
lazily zero-allocates the grad buffer, reports an error (count 1) and
accumulates nothing when the element counts differ, and otherwise adds
elementwise.  The pair is (updated tensor, report_error count). -/
def accumulate_grad_t (t : LTensor) (g : LTensor) : LTensor × Nat :=
  if t.requiresGrad = false then (t, 0)
  else
    let t1 := { t with grad := some (t.grad.getD (List.replicate t.data.length 0)) }
    if t.data.length ≠ g.data.length then (t1, 1)
    else
      let g0 := t.grad.getD (List.replicate t.data.length 0)
      ({ t with grad := some ((List.range t.data.length).map fun i =>
          g0.getD i 0 + g.data.getD i 0) }, 0)

end Legacy

namespace Core

/-- struct _shape (src/src/tensor/_shape.c): a dims array and a stride
array of the same length (`_ndim = dims.length`). -/
structure CShape where
  dims : List Nat
  stride : List Nat
  deriving Repr, DecidableEq

/-- shape_get_elements_count (_shape.c:166-180): 1 for a 0-dim shape,
otherwise the product of the dims (the loop and the empty product
agree, both give 1). -/
def shape_get_elements_count (s : CShape) : Nat := s.dims.foldl (· * ·) 1

/-- shape_copy (_shape.c:61-91): an independent Shape with the same dims
and the same strides ("no need to recalculate"). -/
def shape_copy (s : CShape) : CShape := ⟨s.dims, s.stride⟩

/-- shape_create (_shape.c:24-56): row-major strides,
stride[ndim-1] = 1, stride[i] = stride[i+1] * dims[i+1]. -/
def rowMajorStrides (dims : List Nat) : List Nat :=
  (List.range dims.length).map fun i => ((dims.drop (i + 1)).foldl (· * ·) 1)

def shape_create (dims : List Nat) : CShape := ⟨dims, rowMajorStrides dims⟩

/-- The right-to-left scan of shape_is_contiguous (_shape.c:228-247),
applied to the reversed dims/stride lists with the running expected
stride; the stride of a size-1 dimension is not checked, and the
expected stride is multiplied by the dimension after the check. -/
def contigLoop : List Nat → List Nat → Nat → Bool
  | [], _, _ => true
  | d :: ds, st :: sts, expected =>
      (if d ≠ 1 then st = expected else true) && contigLoop ds sts (expected * d)
  | _ :: _, [], _ => true

/-- shape_is_contiguous (_shape.c:228-247). -/
def shape_is_contiguous (s : CShape) : Bool :=
  contigLoop s.dims.reverse s.stride.reverse 1

/-- The validation loop of shape_permute (_shape.c:259-277): each entry
is range-checked against `ndim` (C ints, so a negative entry is also out
of range) and checked against the `axis_seen` array, which is then
marked. -/
def checkAxes (ndim : Nat) (seen : List Bool) : List ℤ → Bool
  | [] => true
  | a :: rest =>
      if a < 0 ∨ (ndim : ℤ) ≤ a then false
      else if seen.getD a.toNat false then false
      else checkAxes ndim (seen.set a.toNat true) rest

/-- shape_permute (_shape.c:249-306): validates that the first `ndim`
entries of `axes` are in-range and pairwise distinct, then reorders both
dims and strides by `axes` with no stride recomputation. -/
def shape_permute (s : CShape) (axes : List ℤ) : Option CShape :=
  let ndim := s.dims.length
  if checkAxes ndim (List.replicate ndim false) (axes.take ndim) then
    some ⟨(List.range ndim).map fun i => s.dims.getD (axes.getD i 0).toNat 0,
          (List.range ndim).map fun i => s.stride.getD (axes.getD i 0).toNat 0⟩
  else none

/-- shape_expand (_shape.c:311-372): right-aligned broadcast.  Fails if
the source has more dims than the target or a right-aligned source dim
is neither equal to the target dim nor 1; otherwise the result has the
target's dims, stride 0 on every axis introduced on the left or whose
source size is 1, and the source stride elsewhere. -/
def shape_expand (s t : CShape) : Option CShape :=
  let sn := s.dims.length
  let tn := t.dims.length
  if sn > tn then none
  else if (List.range sn).any (fun i0 =>
      let od := s.dims.getD (sn - (i0 + 1)) 0
      let td := t.dims.getD (tn - (i0 + 1)) 0
      od != td && od != 1) then none
  else some
    ⟨t.dims,
     (List.range tn).map fun i =>
       if i < tn - sn ∨ s.dims.getD (i - (tn - sn)) 0 = 1 then 0
       else s.stride.getD (i - (tn - sn)) 0⟩

/-- The three scalar types of the core variant (_tensor_core.h). -/
inductive DataType where
  | i32
  | f32
  | f64
  deriving Repr, DecidableEq

/-- _get_dtype_size (_tensor_core.c:108-125). -/
def getDtypeSize : DataType → Nat
  | .i32 => 4
  | .f32 => 4
  | .f64 => 8

/-- struct _tensor (_tensor_core.c): a data buffer, an exclusively
owned Shape, a dtype and the ownership tag. -/
structure VTensor where
  data : List ℤ
  shape : CShape
  dtype : DataType
  ownsData : Bool
  deriving Repr, DecidableEq

/-- tensor_create (_tensor_core.c:22-50): a zero-filled owning buffer of
`shape_get_elements_count` elements and a `shape_copy` of the given
shape — the strides of the argument shape are copied verbatim. -/
def tensor_create (shape : CShape) (dtype : DataType) : VTensor :=
  ⟨List.replicate (shape_get_elements_count shape) 0, shape_copy shape, dtype, true⟩

/-- tensor_copy (_tensor_core.c:92-106): tensor_create on the source's
shape, then a memcpy of the source's `elements_count` elements. -/
def tensor_copy (t : VTensor) : VTensor :=
  { tensor_create t.shape t.dtype with
    data := (List.range (shape_get_elements_count t.shape)).map fun i => t.data.getD i 0 }

/-- tensor_is_contiguous (_tensor_view.c:37-41). -/
def tensor_is_contiguous (t : VTensor) : Bool := shape_is_contiguous t.shape

/-- The odometer increment of tensor_contiguous (_tensor_view.c:159-168)
on the reversed coordinate/dims lists: increment the last coordinate and
carry leftward while it reaches its dimension. -/
def incRev : List Nat → List Nat → List Nat
  | c :: cs, d :: ds => if c + 1 < d then (c + 1) :: cs else 0 :: incRev cs ds
  | cs, [] => cs
  | [], _ :: _ => []

def odoInc (dims coords : List Nat) : List Nat :=
  (incRev coords.reverse dims.reverse).reverse

/-- The copy loop of tensor_contiguous (_tensor_view.c:145-169): the
i-th destination element is the source element at the byte offset given
by dot-multiplying the current logical coordinates with the source
strides; coordinates advance in row-major odometer order. -/
def contigCopyGo (srcData : List ℤ) (dims strides : List Nat) :
    Nat → List Nat → List ℤ
  | 0, _ => []
  | m + 1, coords =>
      srcData.getD ((List.zipWith (· * ·) coords strides).sum) 0 ::
        contigCopyGo srcData dims strides m (odoInc dims coords)

def contigCopy (srcData : List ℤ) (dims strides : List Nat) (n : Nat) : List ℤ :=
  contigCopyGo srcData dims strides n (List.replicate dims.length 0)

/-- tensor_contiguous (_tensor_view.c:107-173): a deep copy if already
contiguous; otherwise a fresh tensor via tensor_create on the source's
shape whose buffer is filled by the odometer copy loop. -/
def tensor_contiguous (t : VTensor) : VTensor :=
  if tensor_is_contiguous t then tensor_copy t
  else
    { tensor_create t.shape t.dtype with
      data := contigCopy t.data t.shape.dims t.shape.stride
        (shape_get_elements_count t.shape) }

/-- 2^64: size_t / pointer arithmetic is modulo this. -/
def W64 : Nat := 2 ^ 64

/-- Conversion of a C int to size_t (wraps modulo 2^64). -/
def toSizeT (z : ℤ) : Nat := (z % (W64 : ℤ)).toNat

/-- tensor_get_element_ptr (_tensor_core.c:217-246) for non-NULL tensor
and coords: no bounds check; the element offset accumulates
coords[i] * strides[i] in size_t arithmetic, and the returned address is
base + offset * item_size (modulo 2^64, as machine pointers are). -/
def tensor_get_element_ptr (t : VTensor) (base : Nat) (coords : List ℤ) : Nat :=
  let ndim := t.shape.dims.length
  let off := (List.range ndim).foldl
    (fun acc i => (acc + toSizeT (coords.getD i 0) * t.shape.stride.getD i 0) % W64) 0
  (base + off * getDtypeSize t.dtype) % W64

/-- The value a caller reads back through the address computed by
tensor_get_element_ptr with in-range coordinates: the buffer element at
the dot product of coordinates and strides. -/
def tensor_logical_get (t : VTensor) (coords : List Nat) : ℤ :=
  t.data.getD ((List.zipWith (· * ·) coords t.shape.stride).sum) 0

end Core

namespace Model

/-- serialization of a 4-byte little-endian value (fwrite of an int or a
float bit-pattern on a little-endian machine; "native byte order"). -/
def w32 (n : Nat) : List Nat :=
  [n % 256, n / 256 % 256, n / 256 ^ 2 % 256, n / 256 ^ 3 % 256]

/-- A model parameter as serialized: its dims array and its float data
given as 32-bit patterns, one word per element (the claims are about
bit-for-bit reproduction, so the bit pattern is the faithful value
model; 0.0f has pattern 0). -/
structure MParam where
  dims : List Nat
  data : List Nat
  deriving Repr, DecidableEq

/-- save_model (utils.c:131-160): the model's name bytes with its null
terminator, then for each parameter the 4-byte dim count, the 4-byte
dims, and the elements as 4-byte words. -/
def save_model (name : List Nat) (params : List MParam) : List Nat :=
  name ++ [0] ++ (params.flatMap fun p =>
    w32 p.dims.length ++ p.dims.flatMap w32 ++ p.data.flatMap w32)

/-- fread of one 4-byte value; `none` when the stream is exhausted (the
C fread would leave uninitialized memory in the buffer). -/
def readW32 (f : List Nat) : Option (Nat × List Nat) :=
  match f with
  | b0 :: b1 :: b2 :: b3 :: rest =>
      some (b0 + 256 * b1 + 256 ^ 2 * b2 + 256 ^ 3 * b3, rest)
  | _ => none

/-- fread of `n` consecutive 4-byte values. -/
def readWords : Nat → List Nat → Option (List Nat × List Nat)
  | 0, f => some ([], f)
  | n + 1, f => do
      let (w, f1) ← readW32 f
      let (ws, f2) ← readWords n f1
      some (w :: ws, f2)

/-- The parameter-reading body of load_model (utils.c:197-225): a 4-byte
dim count, that many 4-byte dims, then `size` (the product of the read
dims) 4-byte elements. -/
def readParam (f : List Nat) : Option (MParam × List Nat) := do
  let (nd, f1) ← readW32 f
  let (dims, f2) ← readWords nd f1
  let size := dims.foldl (· * ·) 1
  let (dat, f3) ← readWords size f2
  some (⟨dims, dat⟩, f3)

/-- The char codes of the type name "Linear" written by save_model for a
linear layer. -/
def linearName : List Nat := [76, 105, 110, 101, 97, 114]

/-- load_model (utils.c:162-229): reads sizeof(model_type) = 32 bytes
for the type name (advancing the file position by 32 regardless of the
name's length), compares the embedded C string against "Linear", then
reads two 4-byte ints as in_features/out_features, builds the
2-parameter linear module, and overwrites each of its 2 parameters with
a dim count, dims and data read from the file. -/
def load_model (file : List Nat) : Option (List MParam) :=
  if file.length < 32 then none
  else
    let hdr := file.take 32
    let rest := file.drop 32
    if hdr.takeWhile (· ≠ 0) = linearName then do
      let (_inFeatures, r1) ← readW32 rest
      let (_outFeatures, r2) ← readW32 r1
      let (p0, r3) ← readParam r2
      let (p1, _r4) ← readParam r3
      some [p0, p1]
    else none

end Model

end Snake

namespace Snake

/-! ## Helper lemmas -/

theorem getD_of_lt {α : Type} (l : List α) (d : α) (i : Nat) (h : i < l.length) :
    l.getD i d = l[i] := by
  simp [List.getD, List.getElem?_eq_getElem h]

theorem getD_replicate {α : Type} (n i : Nat) (a d : α) (h : i < n) :
    (List.replicate n a).getD i d = a := by
  rw [getD_of_lt _ _ _ (by simpa using h), List.getElem_replicate]

/-- The parent loop of backward accumulates nothing for an operator tag
other than "add", "mul" and "matmul". -/
theorem parentGrad_unknown (t : Legacy.LNode) (i : Nat) (parent other : Legacy.LTensor)
    (tg : List ℤ)
    (h1 : t.opName ≠ "add") (h2 : t.opName ≠ "mul") (h3 : t.opName ≠ "matmul") :
    Legacy.parentGrad t i parent other tg = some parent := by
  unfold Legacy.parentGrad
  split_ifs <;> simp_all

/-! ## C1 -/

/-- Claim C1 (code bug).  For `C = A @ B` the matmul branch of backward
is meant to accumulate `dC · Bᵗ` into A.grad and `Aᵗ · dC` into B.grad,
but the scratch gradient is allocated with the OTHER parent's element
count (`tensor_create(other->num_dims, other->dims, NULL)`,
autograd.c:95) while it is indexed with the parent's dims.  At
A: 3×1, B: 1×2 (m=3, k=1, n=2) the dA scratch holds k·n = 2 elements
and the triple loop writes m·k = 3 of them: the third store is an
out-of-bounds heap write (modelled as `none`), so the claimed
accumulation never happens. -/
theorem matmul_backward_writes_out_of_bounds :
    Legacy.tensor_matmul ⟨[3, 1], [1, 2, 3], true, none⟩ ⟨[1, 2], [4, 5], true, none⟩ =
      some ⟨[3, 2], [4, 5, 8, 10, 12, 15], true, none, "matmul"⟩ ∧
    Legacy.backward ⟨[3, 2], [4, 5, 8, 10, 12, 15], true,
        some (List.replicate 6 1), "matmul"⟩
      ⟨[3, 1], [1, 2, 3], true, none⟩ ⟨[1, 2], [4, 5], true, none⟩ false = none := by
  decide

/-! ## C2 -/

/-- Claim C2 (code bug).  Seeding c's gradient to all-ones and calling
backward on an "add" node is meant to accumulate all-ones into both
requires-grad parents' grads, but the add branch calls
`accumulate_grad(parent, tensor->grad)` (autograd.c:76) passing the raw
`float*` grad buffer where the prototype expects a `Tensor*`
(tensor.h:67 / autograd.h:22, which even conflict with each other);
accumulate_grad then reads `grad->storage` out of the reinterpreted
float bits and dereferences it — undefined behaviour (modelled as
`none`), not the claimed pass-through accumulation.  Evaluated at
a = [1, 2], b = [3, 4] (dims [2], both requires_grad), c = a + b,
c.grad seeded to all-ones. -/
theorem add_backward_reinterprets_grad_buffer :
    Legacy.tensor_add ⟨[2], [1, 2], true, none⟩ ⟨[2], [3, 4], true, none⟩ =
      some ⟨[2], [4, 6], true, none, "add"⟩ ∧
    Legacy.backward ⟨[2], [4, 6], true, some (List.replicate 2 1), "add"⟩
      ⟨[2], [1, 2], true, none⟩ ⟨[2], [3, 4], true, none⟩ false = none := by
  decide

/-! ## C3 -/

/-- Claim C3.  For tensors of identical dims where some element of b's
data is exactly 0, tensor_div returns NULL, report_error is invoked
exactly once, and the data of both operands is unchanged (the operand
states are returned exactly as passed). -/
theorem div_by_zero_returns_null (a b : Legacy.LTensor)
    (hd : a.dims = b.dims)
    (hbl : b.data.length = Legacy.prodDims b.dims)
    (hz : (0 : ℤ) ∈ b.data) :
    Legacy.tensor_div a b = ⟨a, b, none, 1⟩ := by
  unfold Legacy.tensor_div
  rw [if_neg (by rw [hd]; exact fun h => h rfl)]
  rw [if_neg (by simp [hd])]
  rw [if_pos ?_]
  rw [List.any_eq_true]
  obtain ⟨i, hi, hv⟩ := List.mem_iff_getElem.mp hz
  refine ⟨i, ?_, ?_⟩
  · rw [List.mem_range, hd]
    omega
  · rw [getD_of_lt _ _ _ hi, hv]
    rfl

/-- Witness for C3 at a = [1, 2], b = [3, 0] (dims [2]). -/
theorem div_by_zero_returns_null_witness :
    Legacy.tensor_div ⟨[2], [1, 2], false, none⟩ ⟨[2], [3, 0], false, none⟩ =
      ⟨⟨[2], [1, 2], false, none⟩, ⟨[2], [3, 0], false, none⟩, none, 1⟩ :=
  div_by_zero_returns_null _ _ rfl rfl (by decide)

/-! ## C6 -/

/-- Claim C6 (code bug).  tensor_contiguous is meant to return an owning
tensor in canonical row-major layout with the source's logical values,
but its non-contiguous branch allocates the destination with
`tensor_create(shape, dtype)` on the SOURCE's shape, and tensor_create
installs `shape_copy(shape)` — strides copied verbatim
(_tensor_core.c:38, _shape.c:80-88).  On the transposed 2×3 view
(dims [3,2], strides [1,3], buffer [1,2,3,4,5,6]) the copy loop does
fill the new buffer row-major as [1,4,2,5,3,6], but the result keeps
strides [1,3]: it is not contiguous, and reading logical coordinate
(0,1) through its own strides yields 5 where the source holds 4. -/
theorem contiguous_keeps_source_strides :
    Core.tensor_contiguous ⟨[1, 2, 3, 4, 5, 6], ⟨[3, 2], [1, 3]⟩, .f32, false⟩ =
      ⟨[1, 4, 2, 5, 3, 6], ⟨[3, 2], [1, 3]⟩, .f32, true⟩ ∧
    Core.shape_is_contiguous ⟨[3, 2], [1, 3]⟩ = false ∧
    Core.tensor_logical_get ⟨[1, 4, 2, 5, 3, 6], ⟨[3, 2], [1, 3]⟩, .f32, true⟩ [0, 1] = 5 ∧
    Core.tensor_logical_get ⟨[1, 2, 3, 4, 5, 6], ⟨[3, 2], [1, 3]⟩, .f32, false⟩ [0, 1] = 4 := by
  decide

/-! ## C7 -/

/-- Counterexample to claim C7 as stated: for a tensor with
requires_grad unset, accumulate_grad (tensor.c:563-582) returns
immediately — it neither zero-allocates the absent grad buffer nor
accumulates the matching-length source [1, 1] into it. -/
theorem accumulate_grad_skips_non_requires_grad :
    (Legacy.accumulate_grad_t ⟨[2], [0, 0], false, none⟩
        ⟨[2], [1, 1], false, none⟩).1.grad = none ∧
    (Legacy.accumulate_grad_t ⟨[2], [0, 0], false, none⟩
        ⟨[2], [1, 1], false, none⟩).1.grad ≠ some [1, 1] := by
  decide

/-- Claim C7 as amended: for every tensor t WITH requires_grad set,
accumulate_grad (tensor.c:563-582) zero-allocates t.grad sized to t's
element count if absent, fails (reporting one error and accumulating
nothing) when g's element count differs from t's, and otherwise adds
g elementwise into t.grad. -/
theorem accumulate_grad_spec (t g : Legacy.LTensor)
    (h : t.requiresGrad = true) :
    (g.data.length ≠ t.data.length →
      Legacy.accumulate_grad_t t g =
        ({ t with grad := some (t.grad.getD (List.replicate t.data.length 0)) }, 1)) ∧
    (g.data.length = t.data.length →
      Legacy.accumulate_grad_t t g =
        ({ t with grad := some ((List.range t.data.length).map fun i =>
            (t.grad.getD (List.replicate t.data.length 0)).getD i 0 +
              g.data.getD i 0) }, 0)) := by
  unfold Legacy.accumulate_grad_t
  rw [if_neg (by simp [h])]
  constructor
  · intro hlen
    rw [if_pos (by omega)]
  · intro hlen
    rw [if_neg (by omega)]

/-- Witness for the amended C7 at t = zeros [2] (requires_grad, no
grad buffer) and g = [1, 1]: the grad buffer is allocated and becomes
[1, 1] with no error reported. -/
theorem accumulate_grad_spec_witness :
    Legacy.accumulate_grad_t ⟨[2], [0, 0], true, none⟩ ⟨[2], [1, 1], false, none⟩ =
      (⟨[2], [0, 0], true, some [1, 1]⟩, 0) := by
  rw [(accumulate_grad_spec ⟨[2], [0, 0], true, none⟩
    ⟨[2], [1, 1], false, none⟩ rfl).2 rfl]
  decide

/-! ## C8 -/

/-- Claim C8 (code bug).  save_model writes a null-terminated type name
(strlen+1 bytes) then, per parameter, the 4-byte dim count, dims and
float data — but load_model reads sizeof(model_type) = 32 bytes for the
name (utils.c:176) and then two 4-byte feature ints that save_model
never wrote (utils.c:183-184), so parameter parsing starts 33 bytes too
far into the stream.  For a linear layer with weight 2×3 and bias [2]
(all elements 0.0f, bit pattern 0) the saved file is 59 bytes; load
then takes the weight dim count from inside the float payload (value
16777216) and runs off the end of the file: the round-trip reproduces
nothing, instead of being bit-for-bit. -/
theorem save_load_roundtrip_fails :
    Model.load_model (Model.save_model Model.linearName
      [⟨[2, 3], List.replicate 6 0⟩, ⟨[2], List.replicate 2 0⟩]) = none ∧
    Model.load_model (Model.save_model Model.linearName
      [⟨[2, 3], List.replicate 6 0⟩, ⟨[2], List.replicate 2 0⟩]) ≠
      some [⟨[2, 3], List.replicate 6 0⟩, ⟨[2], List.replicate 2 0⟩] := by
  decide

/-! ## C9 -/

/-- Claim C9.  backward dispatches only on the tags "add", "mul" and
"matmul"; on a node tagged "sub" or "div" (as set by tensor_sub and
tensor_div) it silently accumulates nothing: both parents come back
exactly as they were. -/
theorem backward_sub_div_accumulates_nothing (t : Legacy.LNode)
    (p0 p1 : Legacy.LTensor) (retain : Bool)
    (h : t.opName = "sub" ∨ t.opName = "div") :
    ∃ u, Legacy.backward t p0 p1 retain = some (p0, p1, u) := by
  have h1 : t.opName ≠ "add" := by rcases h with h | h <;> simp [h]
  have h2 : t.opName ≠ "mul" := by rcases h with h | h <;> simp [h]
  have h3 : t.opName ≠ "matmul" := by rcases h with h | h <;> simp [h]
  unfold Legacy.backward
  by_cases hrg : t.requiresGrad = false
  · rw [if_pos hrg]
    exact ⟨t, rfl⟩
  · rw [if_neg hrg]
    refine ⟨{ t with grad := if retain then some (Legacy.seedGrad t) else none }, ?_⟩
    dsimp only
    rw [parentGrad_unknown _ 0 p0 p1 _ h1 h2 h3,
      parentGrad_unknown _ 1 p1 p0 _ h1 h2 h3]
    rfl

/-! ## C4 -/

theorem getD_map_range {α : Type} (f : Nat → α) (n i : Nat) (d : α) (h : i < n) :
    ((List.range n).map f).getD i d = f i := by
  rw [getD_of_lt _ _ _ (by simp [h])]
  simp

/-- Claim C4.  shape_expand fails exactly when the source has more
dimensions than the target or some right-aligned source dimension is
neither 1 nor equal to the corresponding target dimension; on success
the result's dims are the target's, and each stride is 0 for an axis
introduced on the left or whose source size is 1, and otherwise the
source's stride for that axis. -/
theorem expand_spec (s t : Core.CShape) :
    (Core.shape_expand s t = none ↔
      t.dims.length < s.dims.length ∨
      ∃ j < s.dims.length,
        s.dims.getD (s.dims.length - (j + 1)) 0 ≠ t.dims.getD (t.dims.length - (j + 1)) 0 ∧
        s.dims.getD (s.dims.length - (j + 1)) 0 ≠ 1) ∧
    (∀ r, Core.shape_expand s t = some r →
      r.dims = t.dims ∧ r.stride.length = t.dims.length ∧
      ∀ i < t.dims.length,
        r.stride.getD i 0 =
          if i < t.dims.length - s.dims.length ∨
              s.dims.getD (i - (t.dims.length - s.dims.length)) 0 = 1 then 0
          else s.stride.getD (i - (t.dims.length - s.dims.length)) 0) := by
  unfold Core.shape_expand
  by_cases hgt : s.dims.length > t.dims.length
  · rw [if_pos hgt]
    refine ⟨⟨fun _ => Or.inl hgt, fun _ => rfl⟩, fun r hr => by cases hr⟩
  · rw [if_neg hgt]
    by_cases hany : (List.range s.dims.length).any (fun i0 =>
        s.dims.getD (s.dims.length - (i0 + 1)) 0 != t.dims.getD (t.dims.length - (i0 + 1)) 0 &&
        s.dims.getD (s.dims.length - (i0 + 1)) 0 != 1) = true
    · rw [if_pos hany]
      obtain ⟨j, hj, hcond⟩ := List.any_eq_true.mp hany
      rw [Bool.and_eq_true, bne_iff_ne, bne_iff_ne] at hcond
      refine ⟨⟨fun _ => Or.inr ⟨j, List.mem_range.mp hj, hcond⟩, fun _ => rfl⟩,
        fun r hr => by cases hr⟩
    · rw [if_neg hany]
      constructor
      · constructor
        · intro h
          cases h
        · intro h
          rcases h with h | ⟨j, hj, hne, hne1⟩
          · omega
          · exact absurd (List.any_eq_true.mpr
              ⟨j, List.mem_range.mpr hj, by rw [Bool.and_eq_true, bne_iff_ne, bne_iff_ne]
                                            exact ⟨hne, hne1⟩⟩) hany
      · intro r hr
        rw [Option.some.injEq] at hr
        subst hr
        refine ⟨rfl, by simp, fun i hi => ?_⟩
        exact getD_map_range _ _ _ _ hi

/-- Witness for C4: the spec's example, expand [3] (strides [1]) to
target [5, 3] yields dims [5, 3] strides [0, 1]; the reverse direction
fails since the source has more dims than the target. -/
theorem expand_spec_witness :
    (∃ r, Core.shape_expand ⟨[3], [1]⟩ ⟨[5, 3], [3, 1]⟩ = some r ∧
      r.dims = [5, 3] ∧ r.stride.getD 0 0 = 0 ∧ r.stride.getD 1 0 = 1) ∧
    Core.shape_expand ⟨[5, 3], [3, 1]⟩ ⟨[3], [1]⟩ = none := by
  constructor
  · match hr : Core.shape_expand ⟨[3], [1]⟩ ⟨[5, 3], [3, 1]⟩ with
    | none =>
        exact absurd ((expand_spec ⟨[3], [1]⟩ ⟨[5, 3], [3, 1]⟩).1.mp hr) (by decide)
    | some r =>
        obtain ⟨hdims, _, hstr⟩ := (expand_spec ⟨[3], [1]⟩ ⟨[5, 3], [3, 1]⟩).2 r hr
        exact ⟨r, rfl, hdims, by simpa using hstr 0 (by decide), by simpa using hstr 1 (by decide)⟩
  · exact (expand_spec ⟨[5, 3], [3, 1]⟩ ⟨[3], [1]⟩).1.mpr (Or.inl (by decide))

/-! ## C5 -/

theorem getD_set_bool (l : List Bool) (i j : Nat) (_hi : i < l.length) (hj : j < l.length) :
    (l.set i true).getD j false = if i = j then true else l.getD j false := by
  rw [getD_of_lt _ _ _ (by simpa using hj), List.getElem_set]
  split_ifs with h
  · rfl
  · rw [getD_of_lt _ _ _ hj]

theorem getD_replicate_self {α : Type} (n i : Nat) (a : α) :
    (List.replicate n a).getD i a = a := by
  by_cases h : i < n
  · exact getD_replicate n i a a h
  · have hle : (List.replicate n a).length ≤ i := by simpa using Nat.le_of_not_lt h
    simp [List.getD, List.getElem?_eq_none hle]

/-- The range-and-uniqueness loop of shape_permute succeeds on exactly
the axis arrays whose entries are in range, unmarked in the `seen`
array, and pairwise distinct. -/
theorem checkAxes_iff (ndim : Nat) (axes : List ℤ) :
    ∀ seen : List Bool, seen.length = ndim →
      (Core.checkAxes ndim seen axes = true ↔
        (∀ a ∈ axes, 0 ≤ a ∧ a.toNat < ndim ∧ seen.getD a.toNat false = false) ∧
          axes.Nodup) := by
  induction axes with
  | nil =>
      intro seen _
      simp [Core.checkAxes]
  | cons a rest ih =>
      intro seen hlen
      unfold Core.checkAxes
      by_cases h1 : a < 0 ∨ (ndim : ℤ) ≤ a
      · rw [if_pos h1]
        simp only [Bool.false_eq_true, false_iff]
        rintro ⟨hall, -⟩
        obtain ⟨ha0, haN, -⟩ := hall a (List.mem_cons_self a rest)
        omega
      · rw [if_neg h1]
        push_neg at h1
        obtain ⟨ha0, haN⟩ := h1
        have htoNa : a.toNat < ndim := by omega
        by_cases h2 : seen.getD a.toNat false = true
        · rw [if_pos h2]
          simp only [Bool.false_eq_true, false_iff]
          rintro ⟨hall, -⟩
          obtain ⟨-, -, hseen⟩ := hall a (List.mem_cons_self a rest)
          rw [hseen] at h2
          cases h2
        · rw [if_neg h2]
          rw [ih (seen.set a.toNat true) (by simp [hlen])]
          have hseenA : seen.getD a.toNat false = false := by
            cases hx : seen.getD a.toNat false
            · rfl
            · exact absurd hx h2
          constructor
          · rintro ⟨hall, hnd⟩
            refine ⟨?_, ?_⟩
            · intro x hx
              rcases List.mem_cons.mp hx with rfl | hx'
              · exact ⟨ha0, htoNa, hseenA⟩
              · obtain ⟨hx0, hxN, hxseen⟩ := hall x hx'
                rw [getD_set_bool seen a.toNat x.toNat (by omega) (by omega)] at hxseen
                by_cases heq : a.toNat = x.toNat
                · rw [if_pos heq] at hxseen
                  cases hxseen
                · rw [if_neg heq] at hxseen
                  exact ⟨hx0, hxN, hxseen⟩
            · rw [List.nodup_cons]
              refine ⟨?_, hnd⟩
              intro hmem
              obtain ⟨-, -, hxseen⟩ := hall a hmem
              rw [getD_set_bool seen a.toNat a.toNat (by omega) (by omega),
                if_pos rfl] at hxseen
              cases hxseen
          · rintro ⟨hall, hnd⟩
            rw [List.nodup_cons] at hnd
            obtain ⟨hnotmem, hndrest⟩ := hnd
            refine ⟨?_, hndrest⟩
            intro x hx
            obtain ⟨hx0, hxN, hxseen⟩ := hall x (List.mem_cons_of_mem a hx)
            refine ⟨hx0, hxN, ?_⟩
            rw [getD_set_bool seen a.toNat x.toNat (by omega) (by omega), if_neg ?_]
            · exact hxseen
            · intro heq
              have hax : a = x := by omega
              exact hnotmem (hax ▸ hx)

/-- Claim C5.  For axes a permutation of 0..ndim-1, shape_permute
reorders both dims and strides by axes with no stride recomputation,
and permuting the result by the inverse permutation restores the
original dims and strides exactly; an axes array with an out-of-range
(including negative) or duplicate entry yields NULL. -/
theorem permute_spec (s : Core.CShape) (hs : s.stride.length = s.dims.length)
    (axes inv : List ℤ)
    (hax : axes.length = s.dims.length)
    (haxr : ∀ a ∈ axes, 0 ≤ a ∧ a.toNat < s.dims.length)
    (haxnd : axes.Nodup)
    (hinv : inv.length = s.dims.length)
    (hinvr : ∀ a ∈ inv, 0 ≤ a ∧ a.toNat < s.dims.length)
    (hinvnd : inv.Nodup)
    (hid : ∀ i < s.dims.length, axes.getD (inv.getD i 0).toNat 0 = (i : ℤ)) :
    (∃ r, Core.shape_permute s axes = some r ∧
      r.dims.length = s.dims.length ∧ r.stride.length = s.dims.length ∧
      (∀ i < s.dims.length,
        r.dims.getD i 0 = s.dims.getD (axes.getD i 0).toNat 0 ∧
        r.stride.getD i 0 = s.stride.getD (axes.getD i 0).toNat 0) ∧
      Core.shape_permute r inv = some s) ∧
    (∀ axes2 : List ℤ, axes2.length = s.dims.length →
      ((∃ a ∈ axes2, a < 0 ∨ (s.dims.length : ℤ) ≤ a) ∨ ¬ axes2.Nodup) →
      Core.shape_permute s axes2 = none) := by
  obtain ⟨sd, sst⟩ := s
  simp only at hs hax haxr hinv hinvr hid ⊢
  constructor
  · have htake : axes.take sd.length = axes := by
      rw [← hax]
      exact List.take_length axes
    have hcheck : Core.checkAxes sd.length (List.replicate sd.length false)
        (axes.take sd.length) = true := by
      rw [htake, checkAxes_iff sd.length axes (List.replicate sd.length false) (by simp)]
      exact ⟨fun a ha => ⟨(haxr a ha).1, (haxr a ha).2, getD_replicate_self _ _ _⟩, haxnd⟩
    refine ⟨⟨(List.range sd.length).map fun i => sd.getD (axes.getD i 0).toNat 0,
            (List.range sd.length).map fun i => sst.getD (axes.getD i 0).toNat 0⟩,
            ?_, by simp, by simp, ?_, ?_⟩
    · unfold Core.shape_permute
      dsimp only
      rw [if_pos hcheck]
    · intro i hi
      exact ⟨getD_map_range _ _ _ _ hi, getD_map_range _ _ _ _ hi⟩
    · unfold Core.shape_permute
      simp only [List.length_map, List.length_range]
      have htakeInv : inv.take sd.length = inv := by
        rw [← hinv]
        exact List.take_length inv
      rw [if_pos ?_]
      · rw [Option.some.injEq, Core.CShape.mk.injEq]
        have helem : ∀ i, i < sd.length →
            ((inv.getD i 0).toNat < sd.length ∧
             (axes.getD (inv.getD i 0).toNat 0).toNat = i) := by
          intro i hi
          have hmem : inv.getD i 0 ∈ inv := by
            rw [getD_of_lt _ _ _ (by omega)]
            exact List.getElem_mem _
          obtain ⟨h0, hN⟩ := hinvr _ hmem
          refine ⟨hN, ?_⟩
          rw [hid i hi]
          omega
        constructor
        · apply List.ext_getElem
          · simp
          · intro i h1 h2
            have hi : i < sd.length := by simpa using h1
            simp only [List.getElem_map, List.getElem_range]
            obtain ⟨hN, hidi⟩ := helem i hi
            rw [getD_map_range _ _ _ _ hN, hidi, getD_of_lt _ _ _ h2]
        · apply List.ext_getElem
          · simp [hs]
          · intro i h1 h2
            have hi : i < sd.length := by simpa using h1
            simp only [List.getElem_map, List.getElem_range]
            obtain ⟨hN, hidi⟩ := helem i hi
            rw [getD_map_range _ _ _ _ hN, hidi, getD_of_lt _ _ _ h2]
      · rw [htakeInv,
          checkAxes_iff sd.length inv (List.replicate sd.length false) (by simp)]
        exact ⟨fun a ha => ⟨(hinvr a ha).1, (hinvr a ha).2, getD_replicate_self _ _ _⟩,
          hinvnd⟩
  · intro axes2 hlen2 hbad
    unfold Core.shape_permute
    dsimp only
    rw [if_neg ?_]
    intro hT
    have htake2 : axes2.take sd.length = axes2 := by
      rw [← hlen2]
      exact List.take_length axes2
    rw [htake2,
      checkAxes_iff sd.length axes2 (List.replicate sd.length false) (by simp)] at hT
    obtain ⟨hall, hnd⟩ := hT
    rcases hbad with ⟨a, ha, hrange⟩ | hdup
    · obtain ⟨h0, hN, -⟩ := hall a ha
      omega
    · exact hdup hnd

/-- Witness for C5: permute([1,0]) on dims [2,3], strides [3,1] gives
dims [3,2], strides [1,3]; permuting again with the inverse restores
the original; an out-of-range axis fails. -/
theorem permute_spec_witness :
    Core.shape_permute ⟨[2, 3], [3, 1]⟩ [0, 2] = none ∧
    ∃ r, Core.shape_permute ⟨[2, 3], [3, 1]⟩ [1, 0] = some r ∧
      Core.shape_permute r [1, 0] = some ⟨[2, 3], [3, 1]⟩ := by
  have h := permute_spec ⟨[2, 3], [3, 1]⟩ rfl [1, 0] [1, 0] rfl (by decide) (by decide)
    rfl (by decide) (by decide) (by decide)
  refine ⟨h.2 [0, 2] rfl (Or.inl ⟨2, by decide, by decide⟩), ?_⟩
  obtain ⟨r, hr1, -, -, -, hr2⟩ := h.1
  exact ⟨r, hr1, hr2⟩

/-! ## C10 -/

theorem foldl_addmod (g : Nat → Nat) (n : Nat) :
    ∀ a : Nat, (List.range n).foldl (fun acc i => (acc + g i) % Core.W64) (a % Core.W64) =
      (a + ((List.range n).map g).sum) % Core.W64 := by
  induction n with
  | zero => intro a; simp
  | succ m ih =>
      intro a
      rw [List.range_succ, List.foldl_append, List.map_append, List.sum_append, ih a]
      simp only [List.foldl_cons, List.foldl_nil, List.map_cons, List.map_nil,
        List.sum_cons, List.sum_nil]
      rw [Nat.mod_add_mod, Nat.add_assoc, Nat.add_zero]

theorem list_sum_modeq (w : ℤ) (f g : Nat → ℤ) (l : List Nat)
    (h : ∀ i ∈ l, Int.ModEq w (f i) (g i)) :
    Int.ModEq w ((l.map f).sum) ((l.map g).sum) := by
  induction l with
  | nil => simp [Int.ModEq.refl]
  | cons x xs ih =>
      simp only [List.map_cons, List.sum_cons]
      exact (h x (by simp)).add (ih fun i hi => h i (by simp [hi]))

/-- Claim C10.  tensor_get_element_ptr performs no bounds checking: for
every tensor and every integer coordinate array (negative or
overlarge coordinates included) it returns the base pointer offset by
(sum over i of coords[i] * strides[i]) * item_size, in the modulo-2^64
arithmetic of size_t and machine pointers. -/
theorem get_element_ptr_no_bounds_check (t : Core.VTensor) (base : Nat) (coords : List ℤ) :
    (Core.tensor_get_element_ptr t base coords : ℤ) =
      ((base : ℤ) +
        (((List.range t.shape.dims.length).map fun i =>
            coords.getD i 0 * (t.shape.stride.getD i 0 : ℤ)).sum) *
          (Core.getDtypeSize t.dtype : ℤ)) % (Core.W64 : ℤ) := by
  unfold Core.tensor_get_element_ptr
  dsimp only
  have hW : (0 : ℤ) < (Core.W64 : ℤ) := by
    unfold Core.W64
    positivity
  have h0 : (List.range t.shape.dims.length).foldl
      (fun acc i => (acc + Core.toSizeT (coords.getD i 0) * t.shape.stride.getD i 0)
        % Core.W64) 0 =
      (((List.range t.shape.dims.length).map fun i =>
        Core.toSizeT (coords.getD i 0) * t.shape.stride.getD i 0).sum) % Core.W64 := by
    have := foldl_addmod
      (fun i => Core.toSizeT (coords.getD i 0) * t.shape.stride.getD i 0)
      t.shape.dims.length 0
    simpa using this
  rw [h0]
  push_cast
  have hterm : ∀ i ∈ List.range t.shape.dims.length,
      Int.ModEq (Core.W64 : ℤ)
        ((Core.toSizeT (coords.getD i 0) : ℤ) * (t.shape.stride.getD i 0 : ℤ))
        (coords.getD i 0 * (t.shape.stride.getD i 0 : ℤ)) := by
    intro i _
    apply Int.ModEq.mul_right
    unfold Core.toSizeT
    rw [Int.toNat_of_nonneg (Int.emod_nonneg _ (by omega))]
    exact Int.emod_emod_of_dvd _ dvd_rfl
  have hsum := list_sum_modeq (Core.W64 : ℤ) _ _ _ hterm
  have hmod : Int.ModEq (Core.W64 : ℤ)
      ((((List.range t.shape.dims.length).map fun i =>
          (Core.toSizeT (coords.getD i 0) : ℤ) * (t.shape.stride.getD i 0 : ℤ)).sum % (Core.W64 : ℤ)))
      (((List.range t.shape.dims.length).map fun i =>
          coords.getD i 0 * (t.shape.stride.getD i 0 : ℤ)).sum) :=
    (Int.emod_emod_of_dvd _ dvd_rfl).trans hsum
  simp only [List.map_map, Function.comp_def, Nat.cast_mul]
  exact Int.ModEq.add_left _ (hmod.mul_right _)

/-! ## C9 -/

/-- Witness for C9 on a "sub" node over parents with and without an
existing grad buffer. -/
theorem backward_sub_div_accumulates_nothing_witness :
    ∃ u, Legacy.backward ⟨[2], [1, 1], true, some [5, 5], "sub"⟩
      ⟨[2], [1, 2], true, some [7, 7]⟩ ⟨[2], [3, 4], true, none⟩ false =
      some (⟨[2], [1, 2], true, some [7, 7]⟩, ⟨[2], [3, 4], true, none⟩, u) :=
  backward_sub_div_accumulates_nothing _ _ _ false (Or.inl rfl)

end Snake
